import Mathlib

/-!
Verification of the Content Resolution Pipeline of the poetry_website
repository: frontmatter parsing (js/content-loader.js,
`parsePoemFileContent`), discovery with fallback, asset probing and the
orchestrator (js/dynamic-poem-loader.js, enhanced folder-structure
version: `discoverAllPoemsFromFolders`, `getFallbackPoemPathsForFolders`,
`fetchAllPoemsEnhanced`).

Strings are modelled as lists of characters (`Str`).  JavaScript string
primitives used by the code (`trim`, `split`, `join`, `substring`,
`lastIndexOf`, one-shot `replace`, the frontmatter regular expression)
are given explicit executable definitions below.  All inputs of interest
are ASCII, where JavaScript's whitespace class coincides with the
space/tab/newline/carriage-return characters used here.
-/

namespace Poetry

abbrev Str := List Char

/-- JavaScript whitespace (restricted to the ASCII characters that occur
in the repository's documents). -/
def isWs (c : Char) : Bool :=
  c = ' ' || c = '\t' || c = '\n' || c = '\r'

/-- Remove leading whitespace (left part of `String.prototype.trim`). -/
def trimL : Str → Str
  | [] => []
  | c :: cs => if isWs c then trimL cs else c :: cs

/-- Remove trailing whitespace. -/
def trimR (s : Str) : Str :=
  (trimL s.reverse).reverse

/-- JavaScript `s.trim()`. -/
def trim (s : Str) : Str :=
  trimR (trimL s)

/-- Truth of `begins pat s` says when `pat` is an initial segment of `s`. -/
def begins : Str → Str → Bool
  | [], _ => true
  | _ :: _, [] => false
  | p :: ps, c :: cs => p = c && begins ps cs

/-- Index of the first occurrence of `pat` in `s`, if any. -/
def findSub (pat : Str) : Str → Option Nat
  | [] => if begins pat [] then some 0 else none
  | c :: cs =>
    if begins pat (c :: cs) then some 0
    else (findSub pat cs).map (· + 1)

/-- Whether `pat` occurs in `s`. -/
def hasSub (pat s : Str) : Bool :=
  (findSub pat s).isSome

/-- JavaScript `s.split(sep)` for a single-character separator. -/
def splitOnChar (sep : Char) : Str → List Str
  | [] => [[]]
  | c :: cs =>
    if c = sep then [] :: splitOnChar sep cs
    else
      match splitOnChar sep cs with
      | [] => [[c]]
      | g :: gs => (c :: g) :: gs

/-- JavaScript `parts.join(sep)` for the `":"` separator used by the
frontmatter parser. -/
def joinColon : List Str → Str
  | [] => []
  | [x] => x
  | x :: y :: rest => x ++ ':' :: joinColon (y :: rest)

/-- JavaScript `s.replace(pat, repl)` with a plain-string pattern:
only the first occurrence is replaced. -/
def replaceFirst (pat repl s : Str) : Str :=
  match findSub pat s with
  | none => s
  | some i => s.take i ++ repl ++ s.drop (i + pat.length)

/-- JavaScript `path.substring(0, path.lastIndexOf sep + 1)`:
everything up to and including the last `'/'` (empty when there is
none, matching `lastIndexOf = -1`). -/
def dirOfPath (s : Str) : Str :=
  ((s.reverse).dropWhile (fun c => !(c = '/'))).reverse

/-- JavaScript `path.split sep |>.pop()`: the last segment. -/
def lastSeg (s : Str) : Str :=
  ((splitOnChar '/' s).getLast?).getD []

def dashes : Str := ['-', '-', '-']

/-- The frontmatter regular expression of content-loader.js (pattern
`^---\s*([\s\S]*?)\s*---` anchored at the start of the string): the
text must start with `---` and contain
a later `---`; the (lazy) group captures the text between the opening
marker and the first later `---`, with surrounding whitespace absorbed
by the greedy `\s*` on both sides.  Returns the captured group
(`match[1]`) and the length of the whole match (`match[0].length`). -/
def frontMatterMatch (s : Str) : Option (Str × Nat) :=
  if begins dashes s then
    let rest := s.drop 3
    match findSub dashes rest with
    | some p0 => some (trim (rest.take p0), 3 + p0 + 3)
    | none => none
  else none

/-- Insertion into a JavaScript object: replaces the value of an
existing key in place, otherwise appends the binding. -/
def setKey (m : List (Str × Str)) (k v : Str) : List (Str × Str) :=
  match m with
  | [] => [(k, v)]
  | (k', v') :: rest =>
    if k' = k then (k, v) :: rest else (k', v') :: setKey rest k v

/-- Value of key `k` in the object `m`, if present. -/
def lookupKey (m : List (Str × Str)) (k : Str) : Option Str :=
  match m with
  | [] => none
  | (k', v) :: rest => if k' = k then some v else lookupKey rest k

/-- One line of the frontmatter block, as handled by the forEach body of
`parsePoemFileContent`: `parts = line.split(':')`; when there are at
least two parts the key is `parts[0].trim()` and the value is
`parts.slice(1).join(':').trim()`; otherwise the line is ignored. -/
def processLine (m : List (Str × Str)) (line : Str) : List (Str × Str) :=
  let parts := splitOnChar ':' line
  if 2 ≤ parts.length then
    setKey m (trim (parts.headD [])) (trim (joinColon parts.tail))
  else m

structure ParseResult where
  frontMatter : List (Str × Str)
  poemText : Str
deriving DecidableEq

/-- Function `parsePoemFileContent` of js/content-loader.js.  Pure and total: a
missing or unterminated frontmatter block yields an empty mapping and
the trimmed whole text as body. -/
def parsePoemFileContent (markdownContent : Str) : ParseResult :=
  match frontMatterMatch markdownContent with
  | none => ⟨[], trim markdownContent⟩
  | some (fmString, m0len) =>
    let poemText := trim (markdownContent.drop m0len)
    let fm := (splitOnChar '\n' fmString).foldl processLine []
    ⟨fm, poemText⟩

/-! ## Discovery Service (part of js/dynamic-poem-loader.js, folder-structure version) -/

/-- One element of the remote listing response:
`{name: string, type: "file"|"dir"}`. -/
structure ListingEntry where
  name : Str
  type : Str
deriving DecidableEq

/-- Outcome of the remote listing request
(`fetch(apiUrl)` followed by `response.json()`):
the call can succeed with entries, return a non-2xx status, deliver a
body that fails to parse as JSON (`response.json()` throws), or fail at
the transport level (`fetch` throws). -/
inductive ListingResult where
  | ok (entries : List ListingEntry)
  | notOk
  | malformed
  | netErr
deriving DecidableEq

/-- Outcome of a subsidiary request whose body is not used: the
per-folder `poem.md` existence check and the image HEAD probes. -/
inductive FetchStatus where
  | ok
  | notOk
  | err
deriving DecidableEq

/-- JavaScript `response.ok`. -/
def statusOk : FetchStatus → Bool
  | FetchStatus.ok => true
  | _ => false

/-- The remote state discovery runs against: the listing response for
the `Poetry` root, and the result of the existence check for
`Poetry/<name>/poem.md` per folder name. -/
structure RemoteState where
  listing : ListingResult
  poemCheck : Str → FetchStatus

/-- A content-item locator, as pushed by the discovery loop. -/
structure PoemInfo where
  path : Str
  name : Str
  directory : Str
  poemNumber : Str
deriving DecidableEq

/-- The locator built for a numbered folder:
`{path: "Poetry/<n>/poem.md", name: "poem_<n>",
directory: "Poetry/<n>/", poemNumber: "<n>"}`. -/
def mkPoemInfo (folderName : Str) : PoemInfo :=
  { path := (("Poetry/").data) ++ folderName ++ (("/poem.md").data)
  , name := (("poem_").data) ++ folderName
  , directory := (("Poetry/").data) ++ folderName ++ (("/").data)
  , poemNumber := folderName }

/-- The filter `/^\d+$/.test(item.name)`. -/
def isNumericName (s : Str) : Bool :=
  !(s.isEmpty) && s.all (fun c => c.isDigit)

/-- JavaScript `parseInt` on the pure digit strings produced by the
numeric-name filter. -/
def parseIntNat (s : Str) : Nat :=
  s.foldl (fun acc c => acc * 10 + (c.toNat - ('0').toNat)) 0

def pKey (p : PoemInfo) : Nat := parseIntNat p.poemNumber

/-- One step of the stable sort
`poems.sort((a, b) => parseInt(a.poemNumber) - parseInt(b.poemNumber))`:
insert behind all entries with a key not greater than the new one. -/
def insertPoem (x : PoemInfo) : List PoemInfo → List PoemInfo
  | [] => [x]
  | y :: ys => if pKey x < pKey y then x :: y :: ys else y :: insertPoem x ys

/-- Stable sort by ascending numeric folder number (JavaScript
`Array.prototype.sort` is stable, so any stable sort under the same
comparator produces the same list). -/
def sortByPoemNumber : List PoemInfo → List PoemInfo
  | [] => []
  | x :: xs => insertPoem x (sortByPoemNumber xs)

/-- The 74 hardcoded paths of `getFallbackPoemPathsForFolders`. -/
def staticPaths : List String :=
  [ "Poetry/1/poem.md", "Poetry/2/poem.md", "Poetry/3/poem.md"
  , "Poetry/4/poem.md", "Poetry/5/poem.md", "Poetry/6/poem.md"
  , "Poetry/7/poem.md", "Poetry/8/poem.md", "Poetry/9/poem.md"
  , "Poetry/10/poem.md", "Poetry/11/poem.md", "Poetry/12/poem.md"
  , "Poetry/13/poem.md", "Poetry/14/poem.md", "Poetry/15/poem.md"
  , "Poetry/16/poem.md", "Poetry/17/poem.md", "Poetry/18/poem.md"
  , "Poetry/19/poem.md", "Poetry/20/poem.md", "Poetry/21/poem.md"
  , "Poetry/22/poem.md", "Poetry/23/poem.md", "Poetry/24/poem.md"
  , "Poetry/25/poem.md", "Poetry/26/poem.md", "Poetry/27/poem.md"
  , "Poetry/28/poem.md", "Poetry/29/poem.md", "Poetry/30/poem.md"
  , "Poetry/31/poem.md", "Poetry/32/poem.md", "Poetry/33/poem.md"
  , "Poetry/34/poem.md", "Poetry/35/poem.md", "Poetry/36/poem.md"
  , "Poetry/37/poem.md", "Poetry/38/poem.md", "Poetry/39/poem.md"
  , "Poetry/40/poem.md", "Poetry/41/poem.md", "Poetry/42/poem.md"
  , "Poetry/43/poem.md", "Poetry/44/poem.md", "Poetry/45/poem.md"
  , "Poetry/46/poem.md", "Poetry/47/poem.md", "Poetry/48/poem.md"
  , "Poetry/49/poem.md", "Poetry/50/poem.md", "Poetry/51/poem.md"
  , "Poetry/52/poem.md", "Poetry/53/poem.md", "Poetry/54/poem.md"
  , "Poetry/55/poem.md", "Poetry/56/poem.md", "Poetry/57/poem.md"
  , "Poetry/58/poem.md", "Poetry/59/poem.md", "Poetry/60/poem.md"
  , "Poetry/61/poem.md", "Poetry/62/poem.md", "Poetry/63/poem.md"
  , "Poetry/64/poem.md", "Poetry/65/poem.md", "Poetry/66/poem.md"
  , "Poetry/67/poem.md", "Poetry/68/poem.md", "Poetry/69/poem.md"
  , "Poetry/70/poem.md", "Poetry/71/poem.md", "Poetry/72/poem.md"
  , "Poetry/73/poem.md", "Poetry/74/poem.md" ]

/-- Fallback list `getFallbackPoemPathsForFolders`: the static disaster-recovery
locator list, in declared order. -/
def getFallbackPoemPathsForFolders : List PoemInfo :=
  staticPaths.map (fun p =>
    { path := p.data
    , name := replaceFirst ((".md").data) [] (lastSeg p.data)
    , directory := dirOfPath p.data
    , poemNumber := (splitOnChar '/' p.data).getD 1 [] })

/-- Function `discoverAllPoemsFromFolders`.  The whole remote interaction is
wrapped in try/catch, so a thrown error (network failure, or
`response.json()` throwing on a malformed body) falls back to the
static list; a non-2xx listing response skips the `response.ok` block
and returns the (still empty) accumulator; on success the entries are
filtered to numeric-named directories, each folder is kept only when
its `poem.md` existence check succeeds (a thrown per-folder check is
caught and the folder skipped), and the result is sorted by folder
number.  The function never throws. -/
def discoverAllPoemsFromFolders (st : RemoteState) : List PoemInfo :=
  match st.listing with
  | ListingResult.ok entries =>
    let poemFolders := entries.filter
      (fun e => e.type = (("dir").data) && isNumericName e.name)
    let poems := poemFolders.filterMap (fun folder =>
      if statusOk (st.poemCheck folder.name) then some (mkPoemInfo folder.name)
      else none)
    sortByPoemNumber poems
  | ListingResult.notOk => []
  | ListingResult.malformed => getFallbackPoemPathsForFolders
  | ListingResult.netErr => getFallbackPoemPathsForFolders

/-! ## Asset Resolver and Pipeline Orchestrator -/

/-- Outcome of the per-item document fetch
(`fetch('/poetry_website/' + filePath)` plus `response.text()`). -/
inductive DocFetch where
  | ok (body : Str)
  | notOk
  | err
deriving DecidableEq

/-- The environment one pipeline pass runs against.  `fetchDoc` is
keyed by the document path and `headImage` by the image path (the
constant `/poetry_website/` base prefix is common to every request and
absorbed into the keying). -/
structure World where
  remote : RemoteState
  fetchDoc : Str → DocFetch
  headImage : Str → FetchStatus

/-- Candidate path `folderPath + "/image." + ext`. -/
def candidatePath (folderPath ext : Str) : Str :=
  folderPath ++ (("/image.").data) ++ ext

/-- Source list `const imageExtensions = ['png', 'jpg', 'jpeg', 'webp']`. -/
def imageExtensions : List Str :=
  [("png").data, ("jpg").data, ("jpeg").data, ("webp").data]

/-- The probing loop over a list of candidate extensions: a HEAD
request per candidate, stopping at the first `response.ok`; a thrown
probe is caught and treated like a miss. -/
def detectImageFrom (head : Str → FetchStatus) (folderPath : Str) :
    List Str → Str
  | [] => []
  | ext :: rest =>
    if statusOk (head (candidatePath folderPath ext)) then
      candidatePath folderPath ext
    else detectImageFrom head folderPath rest

/-- Asset resolution for one folder: probe `image.png`, `image.jpg`,
`image.jpeg`, `image.webp` in that order; empty string when no probe
succeeds. -/
def detectImage (head : Str → FetchStatus) (folderPath : Str) : Str :=
  detectImageFrom head folderPath imageExtensions

/-- Source expression removing one trailing slash from the directory (a `replace` with a trailing-slash regular expression). -/
def stripTrailingSlash (s : Str) : Str :=
  if s.getLast? = some '/' then s.dropLast else s

/-- The produced content record (`poemEntry` object literal).  The
spread `...frontMatter` sits between the `id` property and the explicit
properties, so a frontmatter key `id` overrides the computed identity,
while `content`, `title`, ..., `folderPath` override any homonymous
frontmatter key.  Frontmatter keys other than these do not influence
any field below. -/
structure PoemEntry where
  id : Str
  content : Str
  title : Str
  author : Str
  original_path : Str
  language : Str
  form : Str
  length : Str
  image : Str
  filePath : Str
  poemNumber : Str
  folderPath : Str
deriving DecidableEq

/-- JavaScript `x || dflt` for a possibly-absent string property: both
`undefined` and the empty string are falsy. -/
def jsOr (v : Option Str) (dflt : Str) : Str :=
  match v with
  | none => dflt
  | some s => if s = [] then dflt else s

/-- The record built for one successfully fetched document
(fileName is `poem_<poemNumber>`). -/
def mkPoemEntry (info : PoemInfo) (fm : List (Str × Str))
    (poemText detectedImage folderPath : Str) : PoemEntry :=
  let fileName := (("poem_").data) ++ info.poemNumber
  { id := (lookupKey fm (("id").data)).getD fileName
  , content := poemText
  , title := jsOr (lookupKey fm (("title").data)) (("Untitled").data)
  , author := jsOr (lookupKey fm (("author").data)) (("Unknown Author").data)
  , original_path := jsOr (lookupKey fm (("original_path").data)) info.path
  , language := jsOr (lookupKey fm (("language").data)) (("unknown").data)
  , form := jsOr (lookupKey fm (("form").data)) (("unknown").data)
  , length := jsOr (lookupKey fm (("length").data)) (("unknown").data)
  , image := detectedImage
  , filePath := info.path
  , poemNumber := info.poemNumber
  , folderPath := folderPath }

/-- The loop body of `fetchAllPoemsEnhanced` for one locator: a failed
document fetch (non-2xx, logged with `continue`, or a thrown error
caught by the surrounding try/catch) skips the item; otherwise the
document is parsed, the image probed, and the record assembled. -/
def processPoemInfo (w : World) (info : PoemInfo) : Option PoemEntry :=
  match w.fetchDoc info.path with
  | DocFetch.ok body =>
    let pr := parsePoemFileContent body
    let folderPath := stripTrailingSlash info.directory
    let detectedImage := detectImage w.headImage folderPath
    some (mkPoemEntry info pr.frontMatter pr.poemText detectedImage folderPath)
  | _ => none

/-- JavaScript `arr.slice(0, n)` for an integer `n`: a nonnegative end
index takes a prefix, a negative one counts from the end. -/
def jsSlice0 (l : List PoemInfo) (n : Int) : List PoemInfo :=
  if 0 ≤ n then l.take n.toNat else l.take (l.length - (-n).toNat)

/-- Source line `const pathsToProcess = limit ? poemPaths.slice(0, limit) : poemPaths`:
`limit` is truthy only when provided and nonzero. -/
def pathsToProcess (locs : List PoemInfo) (limit : Option Int) : List PoemInfo :=
  match limit with
  | none => locs
  | some n => if n = 0 then locs else jsSlice0 locs n

/-- Orchestrator `fetchAllPoemsEnhanced(limit = null)`: one discovery pass (its own
try/catch is dead code, since discovery already catches internally and
the fallback construction is pure), the truthiness-guarded slice, then
the per-item fetch-parse-probe-normalize loop that skips failed items
and keeps discovery order. -/
def fetchAllPoemsEnhanced (w : World) (limit : Option Int) : List PoemEntry :=
  let poemPaths := discoverAllPoemsFromFolders w.remote
  (pathsToProcess poemPaths limit).filterMap (processPoemInfo w)

/-! ## Concrete environments used to instantiate the theorems -/

/-- The document of the end-to-end scenario: container `7`, declared
title `Kogarashi`. -/
def doc7 : Str := ("---\ntitle: Kogarashi\n---\nThe cold wind blows").data

/-- Remote state with one numbered container `7`. -/
def st7 : RemoteState :=
  { listing := ListingResult.ok [⟨("7").data, ("dir").data⟩]
  , poemCheck := fun _ => FetchStatus.ok }

/-- World of the end-to-end scenario: container `7` with `poem.md`
present and `image.png` present. -/
def w7 : World :=
  { remote := st7
  , fetchDoc := fun p =>
      if p = ("Poetry/7/poem.md").data then DocFetch.ok doc7 else DocFetch.notOk
  , headImage := fun p =>
      if p = ("Poetry/7/image.png").data then FetchStatus.ok else FetchStatus.notOk }

/-- A listing of ten numbered containers, in the lexicographic order a
directory listing typically reports. -/
def entries10 : List ListingEntry :=
  [⟨("1").data, ("dir").data⟩, ⟨("10").data, ("dir").data⟩
  , ⟨("2").data, ("dir").data⟩, ⟨("3").data, ("dir").data⟩
  , ⟨("4").data, ("dir").data⟩, ⟨("5").data, ("dir").data⟩
  , ⟨("6").data, ("dir").data⟩, ⟨("7").data, ("dir").data⟩
  , ⟨("8").data, ("dir").data⟩, ⟨("9").data, ("dir").data⟩]

/-- World with a 10-locator discovery result where every document
fetch succeeds. -/
def w10 : World :=
  { remote := { listing := ListingResult.ok entries10
              , poemCheck := fun _ => FetchStatus.ok }
  , fetchDoc := fun _ => DocFetch.ok doc7
  , headImage := fun _ => FetchStatus.notOk }

/-- Remote state whose listing request returns a non-2xx status. -/
def stNotOk : RemoteState :=
  { listing := ListingResult.notOk, poemCheck := fun _ => FetchStatus.ok }

/-- Remote state whose listing request fails at the transport level. -/
def stNetErr : RemoteState :=
  { listing := ListingResult.netErr, poemCheck := fun _ => FetchStatus.ok }

/-- Remote state with one numeric directory whose `poem.md` existence
check returns a non-2xx status. -/
def stMissingDoc : RemoteState :=
  { listing := ListingResult.ok [⟨("3").data, ("dir").data⟩]
  , poemCheck := fun _ => FetchStatus.notOk }

/-- A document whose title value is surrounded by double quotes. -/
def docQuoted : Str := ("---\ntitle: \"Kogarashi\"\n---\nThe cold wind").data

/-- Whether a document fetch came back usable (`response.ok`, no
exception). -/
def docOk : DocFetch → Bool
  | DocFetch.ok _ => true
  | _ => false

/-- A probe environment where the `png` probe fails at the transport
level and the `jpg` probe succeeds. -/
def head5 : Str → FetchStatus := fun p =>
  if p = ("Poetry/9/image.png").data then FetchStatus.err
  else if p = ("Poetry/9/image.jpg").data then FetchStatus.ok
  else FetchStatus.notOk

/-- The five always-defaulted record fields are non-empty. -/
def recordFieldsOk (e : PoemEntry) : Bool :=
  !(e.title.isEmpty) && !(e.author.isEmpty) && !(e.language.isEmpty)
    && !(e.form.isEmpty) && !(e.length.isEmpty)

/-- Hypothesis of one pipeline pass: the names in the remote listing,
when the listing succeeds ( a real directory cannot contain two entries
of the same name). -/
def listingNames (st : RemoteState) : List Str :=
  match st.listing with
  | ListingResult.ok entries => entries.map ListingEntry.name
  | _ => []

/-- Whether no document fetched during the pass declares an `id`
frontmatter key (such a key would override the derived identity through
the object spread). -/
def fetchedHasNoIdKey (w : World) : Bool :=
  (discoverAllPoemsFromFolders w.remote).all (fun info =>
    match w.fetchDoc info.path with
    | DocFetch.ok body =>
      (lookupKey (parsePoemFileContent body).frontMatter (("id").data)).isNone
    | _ => true)

/-! ## Helper lemmas -/

theorem filterMap_if_eq {α β : Type} (p : α → Bool) (f : α → β) :
    ∀ l : List α,
      l.filterMap (fun a => if p a then some (f a) else none)
        = (l.filter p).map f := by
  intro l
  induction l with
  | nil => rfl
  | cons a l ih =>
    by_cases h : p a = true <;>
      simp [List.filterMap_cons, List.filter_cons, h, ih]

theorem filterMap_opt_sublist {α β : Type} (g : α → Option β) (f : α → β) :
    ∀ l : List α, (∀ a ∈ l, g a = none ∨ g a = some (f a)) →
      (l.filterMap g).Sublist (l.map f) := by
  intro l
  induction l with
  | nil => intro _; simp
  | cons a l ih =>
    intro h
    have ha := h a (by simp)
    have ht := ih (fun x hx => h x (by simp [hx]))
    rcases ha with ha | ha
    · simpa [List.filterMap_cons, ha] using ht.cons (f a)
    · simpa [List.filterMap_cons, ha] using ht.cons₂ (f a)

theorem insertPoem_perm (x : PoemInfo) :
    ∀ l : List PoemInfo, (insertPoem x l).Perm (x :: l) := by
  intro l
  induction l with
  | nil => exact List.Perm.refl _
  | cons y ys ih =>
    by_cases h : pKey x < pKey y
    · simp [insertPoem, h]
    · simp only [insertPoem, h, if_false]
      exact (ih.cons y).trans (List.Perm.swap x y ys)

theorem sortByPoemNumber_perm :
    ∀ l : List PoemInfo, (sortByPoemNumber l).Perm l := by
  intro l
  induction l with
  | nil => exact List.Perm.refl _
  | cons x xs ih =>
    exact (insertPoem_perm x (sortByPoemNumber xs)).trans (ih.cons x)

theorem insertPoem_pairwise (x : PoemInfo) :
    ∀ l : List PoemInfo,
      List.Pairwise (fun a b => pKey a ≤ pKey b) l →
      List.Pairwise (fun a b => pKey a ≤ pKey b) (insertPoem x l) := by
  intro l
  induction l with
  | nil => intro _; simp [insertPoem]
  | cons y ys ih =>
    intro h
    rcases List.pairwise_cons.mp h with ⟨hy, hys⟩
    by_cases hxy : pKey x < pKey y
    · simp only [insertPoem, if_pos hxy]
      refine List.pairwise_cons.mpr ⟨?_, h⟩
      intro z hz
      rcases List.mem_cons.mp hz with rfl | hz
      · exact Nat.le_of_lt hxy
      · exact Nat.le_trans (Nat.le_of_lt hxy) (hy z hz)
    · simp only [insertPoem, hxy, if_false]
      refine List.pairwise_cons.mpr ⟨?_, ih hys⟩
      intro z hz
      have hz' : z ∈ x :: ys := (insertPoem_perm x ys).mem_iff.mp hz
      rcases List.mem_cons.mp hz' with rfl | hz'
      · exact Nat.le_of_not_lt hxy
      · exact hy z hz'

theorem sortByPoemNumber_pairwise :
    ∀ l : List PoemInfo,
      List.Pairwise (fun a b => pKey a ≤ pKey b) (sortByPoemNumber l) := by
  intro l
  induction l with
  | nil => simp [sortByPoemNumber]
  | cons x xs ih => exact insertPoem_pairwise x (sortByPoemNumber xs) ih

theorem append_left_inj (pre : Str) :
    Function.Injective (fun s : Str => pre ++ s) := by
  intro a b h
  simpa using h

theorem splitOnChar_ne_nil (sep : Char) :
    ∀ s : Str, splitOnChar sep s ≠ [] := by
  intro s
  cases s with
  | nil => simp [splitOnChar]
  | cons c cs =>
    by_cases h : c = sep
    · simp [splitOnChar, h]
    · simp only [splitOnChar, h, if_false]
      cases splitOnChar sep cs <;> simp

theorem joinColon_cons_cons (c : Char) (g : Str) (gs : List Str) :
    joinColon ((c :: g) :: gs) = c :: joinColon (g :: gs) := by
  cases gs <;> rfl

theorem joinColon_splitOnChar :
    ∀ s : Str, joinColon (splitOnChar ':' s) = s := by
  intro s
  induction s with
  | nil => rfl
  | cons c cs ih =>
    rcases hs : splitOnChar ':' cs with _ | ⟨g, gs⟩
    · exact absurd hs (splitOnChar_ne_nil ':' cs)
    by_cases h : c = ':'
    · subst h
      have h1 : splitOnChar ':' (':' :: cs) = [] :: g :: gs := by
        simp [splitOnChar, hs]
      have h2 : joinColon ([] :: g :: gs) = ':' :: joinColon (g :: gs) := rfl
      rw [h1, h2, ← hs, ih]
    · have h1 : splitOnChar ':' (c :: cs) = (c :: g) :: gs := by
        simp [splitOnChar, h, hs]
      rw [h1, joinColon_cons_cons, ← hs, ih]

theorem splitOnChar_no_sep_cons (sep : Char) :
    ∀ (l r : Str), sep ∉ l →
      splitOnChar sep (l ++ sep :: r) = l :: splitOnChar sep r := by
  intro l
  induction l with
  | nil => intro r _; simp [splitOnChar]
  | cons c cs ih =>
    intro r h
    have hc : ¬ c = sep := fun hc => h (by simp [hc])
    have ht := ih r (fun hm => h (List.mem_cons_of_mem c hm))
    simp only [List.cons_append, splitOnChar, hc, if_false]
    have ht' : splitOnChar sep (cs.append (sep :: r)) = cs :: splitOnChar sep r := ht
    rw [ht']

theorem jsOr_ne_nil (v : Option Str) (d : Str) (hd : d ≠ []) :
    jsOr v d ≠ [] := by
  cases v with
  | none => simpa [jsOr] using hd
  | some s =>
    by_cases h : s = [] <;> simp [jsOr, h, hd]

theorem stripTrailingSlash_concat (a : Str) :
    stripTrailingSlash (a ++ ['/']) = a := by
  simp [stripTrailingSlash, List.getLast?_concat, List.dropLast_concat]

theorem fallback_poemNumbers_nodup :
    ((getFallbackPoemPathsForFolders).map PoemInfo.poemNumber).Nodup := by
  decide

theorem fallback_shape :
    ∀ info ∈ getFallbackPoemPathsForFolders,
      stripTrailingSlash info.directory = (("Poetry/").data) ++ info.poemNumber := by
  decide

/-- The poem numbers (container names) of the locators of one discovery
pass are pairwise distinct, provided the remote listing (when it
succeeds) holds no duplicate entry names. -/
theorem discover_poemNumbers_nodup (st : RemoteState)
    (h : (listingNames st).Nodup) :
    ((discoverAllPoemsFromFolders st).map PoemInfo.poemNumber).Nodup := by
  rcases hst : st.listing with entries | _ | _ | _
  · have hnames : (entries.map ListingEntry.name).Nodup := by
      simpa [listingNames, hst] using h
    simp only [discoverAllPoemsFromFolders, hst]
    set shapeOk : ListingEntry → Bool :=
      fun e => e.type = (("dir").data) && isNumericName e.name with hshape
    set checkOk : ListingEntry → Bool :=
      fun e => statusOk (st.poemCheck e.name) with hcheck
    have hperm :
        ((sortByPoemNumber ((entries.filter shapeOk).filterMap (fun folder =>
            if statusOk (st.poemCheck folder.name) then some (mkPoemInfo folder.name)
            else none))).map PoemInfo.poemNumber).Perm
          (((entries.filter shapeOk).filterMap (fun folder =>
            if statusOk (st.poemCheck folder.name) then some (mkPoemInfo folder.name)
            else none)).map PoemInfo.poemNumber) :=
      (sortByPoemNumber_perm _).map PoemInfo.poemNumber
    refine hperm.nodup_iff.mpr ?_
    have hmaps :
        (((entries.filter shapeOk).filterMap (fun folder =>
            if statusOk (st.poemCheck folder.name) then some (mkPoemInfo folder.name)
            else none)).map PoemInfo.poemNumber)
          = ((entries.filter shapeOk).filter checkOk).map ListingEntry.name := by
      rw [List.map_filterMap]
      rw [← filterMap_if_eq checkOk ListingEntry.name (entries.filter shapeOk)]
      apply List.filterMap_congr
      intro e _
      by_cases hc : checkOk e = true
      · have : statusOk (st.poemCheck e.name) = true := by
          simpa [hcheck] using hc
        simp [this, hc, mkPoemInfo]
      · have : ¬ statusOk (st.poemCheck e.name) = true := by
          simpa [hcheck] using hc
        simp [this, hc]
    rw [hmaps]
    have hsub : (((entries.filter shapeOk).filter checkOk).map ListingEntry.name).Sublist
        (entries.map ListingEntry.name) :=
      ((List.filter_sublist _).trans (List.filter_sublist _)).map ListingEntry.name
    exact hnames.sublist hsub
  · simp [discoverAllPoemsFromFolders, hst]
  · simpa [discoverAllPoemsFromFolders, hst] using fallback_poemNumbers_nodup
  · simpa [discoverAllPoemsFromFolders, hst] using fallback_poemNumbers_nodup

/-- Every locator a discovery pass produces points into the container
`Poetry/<poemNumber>`: stripping the trailing slash of its directory
yields `Poetry/` followed by its poem number. -/
theorem discover_info_shape (st : RemoteState) :
    ∀ info ∈ discoverAllPoemsFromFolders st,
      stripTrailingSlash info.directory = (("Poetry/").data) ++ info.poemNumber := by
  intro info hinfo
  rcases hst : st.listing with entries | _ | _ | _ <;>
    rw [discoverAllPoemsFromFolders, hst] at hinfo
  · have hinfo' := ((sortByPoemNumber_perm _).mem_iff).mp hinfo
    rcases List.mem_filterMap.mp hinfo' with ⟨folder, _, hf⟩
    rcases hif : statusOk (st.poemCheck folder.name) with _ | _
    · rw [hif] at hf; simp at hf
    · rw [hif] at hf
      simp only [if_pos] at hf
      cases hf
      show stripTrailingSlash
          ((("Poetry/").data) ++ folder.name ++ (("/").data)) = _
      have : (("Poetry/").data) ++ folder.name ++ (("/").data)
          = ((("Poetry/").data) ++ folder.name) ++ ['/'] := by
        simp
      rw [this, stripTrailingSlash_concat]
      rfl
  · simp at hinfo
  · exact fallback_shape info hinfo
  · exact fallback_shape info hinfo

/-- The slice taken by the orchestrator is a sublist of the discovery
result. -/
theorem pathsToProcess_sublist (locs : List PoemInfo) (limit : Option Int) :
    (pathsToProcess locs limit).Sublist locs := by
  rcases limit with _ | n
  · exact List.Sublist.refl locs
  · by_cases h : n = 0
    · simp [pathsToProcess, h]
    · simp only [pathsToProcess, h, if_false, jsSlice0]
      by_cases h0 : 0 ≤ n
      · simp only [h0, if_true]; exact List.take_sublist _ _
      · simp only [h0, if_false]; exact List.take_sublist _ _

/-! ## Claims -/

/-- C1, counterexample to the claim as stated: running the pipeline on
a container named `7` whose document declares title `Kogarashi` (with
`image.png` present) yields one record whose identity is `poem_7` —
derived from the container name, but not equal to `"7"` as the claim
asserts. -/
theorem c1_identity_counterexample :
    (fetchAllPoemsEnhanced w7 none).map PoemEntry.id = [("poem_7").data]
    ∧ (fetchAllPoemsEnhanced w7 none).map PoemEntry.title = [("Kogarashi").data]
    ∧ (fetchAllPoemsEnhanced w7 none).map PoemEntry.id ≠ [("7").data] := by
  exact ⟨by decide, by decide, by decide⟩

/-- C1 (amended): for every pipeline pass, each produced record's
identity is `poem_` followed by its locator's container name (the
folder number derived from the container path `Poetry/<n>/`), and the
identities are pairwise distinct across the records of the pass —
provided the remote listing holds no duplicate entry names and no
fetched document declares an `id` metadata key (which the object spread
would let override the derived identity).  In particular the container
named `7` yields identity `poem_7`. -/
theorem c1_identity_from_container (w : World) (limit : Option Int)
    (hnames : (listingNames w.remote).Nodup)
    (hid : fetchedHasNoIdKey w = true) :
    (∀ e ∈ fetchAllPoemsEnhanced w limit,
        e.id = (("poem_").data) ++ e.poemNumber
        ∧ e.folderPath = (("Poetry/").data) ++ e.poemNumber)
    ∧ ((fetchAllPoemsEnhanced w limit).map PoemEntry.id).Nodup := by
  have hsub : (pathsToProcess (discoverAllPoemsFromFolders w.remote) limit).Sublist
      (discoverAllPoemsFromFolders w.remote) :=
    pathsToProcess_sublist _ limit
  have hkey : ∀ info ∈ pathsToProcess (discoverAllPoemsFromFolders w.remote) limit,
      ∀ e, processPoemInfo w info = some e →
        e.id = (("poem_").data) ++ info.poemNumber
        ∧ e.poemNumber = info.poemNumber
        ∧ e.folderPath = stripTrailingSlash info.directory := by
    intro info hmem e hproc
    have hinl : info ∈ discoverAllPoemsFromFolders w.remote := hsub.subset hmem
    have hb := (List.all_eq_true.mp hid) info hinl
    rcases hfd : w.fetchDoc info.path with body | _ | _
    · rw [hfd] at hb
      simp only [processPoemInfo, hfd] at hproc
      have he := Option.some.inj hproc
      subst he
      have hnone : lookupKey (parsePoemFileContent body).frontMatter (("id").data)
          = none := Option.isNone_iff_eq_none.mp hb
      refine ⟨?_, rfl, rfl⟩
      simp [mkPoemEntry, hnone]
    · simp [processPoemInfo, hfd] at hproc
    · simp [processPoemInfo, hfd] at hproc
  constructor
  · intro e he
    rcases List.mem_filterMap.mp he with ⟨info, hmem, hproc⟩
    rcases hkey info hmem e hproc with ⟨hid', hnum, hfold⟩
    refine ⟨by rw [hid', hnum], ?_⟩
    rw [hfold, hnum]
    exact discover_info_shape w.remote info (hsub.subset hmem)
  · have hrw : (fetchAllPoemsEnhanced w limit).map PoemEntry.id
        = (pathsToProcess (discoverAllPoemsFromFolders w.remote) limit).filterMap
            (fun info => (processPoemInfo w info).map PoemEntry.id) := by
      rw [fetchAllPoemsEnhanced, List.map_filterMap]
    rw [hrw]
    have hids : ((pathsToProcess (discoverAllPoemsFromFolders w.remote) limit).filterMap
        (fun info => (processPoemInfo w info).map PoemEntry.id)).Sublist
          ((pathsToProcess (discoverAllPoemsFromFolders w.remote) limit).map
            (fun info => (("poem_").data) ++ info.poemNumber)) := by
      apply filterMap_opt_sublist
      intro info hmem
      rcases hproc : processPoemInfo w info with _ | e
      · exact Or.inl rfl
      · rcases hkey info hmem e hproc with ⟨hid', hnum, _⟩
        refine Or.inr ?_
        simp [hproc, hid', hnum]
    refine List.Nodup.sublist hids ?_
    have hcomp : ((pathsToProcess (discoverAllPoemsFromFolders w.remote) limit).map
        (fun info => (("poem_").data) ++ info.poemNumber))
          = (((pathsToProcess (discoverAllPoemsFromFolders w.remote) limit).map
              PoemInfo.poemNumber).map (fun s => (("poem_").data) ++ s)) := by
      rw [List.map_map]; rfl
    rw [hcomp]
    refine List.Nodup.map (append_left_inj _) ?_
    refine List.Nodup.sublist (hsub.map PoemInfo.poemNumber) ?_
    exact discover_poemNumbers_nodup w.remote hnames

/-- C1 witness: the amended theorem instantiated at the end-to-end
scenario (container `7`, title `Kogarashi`, `image.png` present). -/
theorem c1_identity_witness :
    (∀ e ∈ fetchAllPoemsEnhanced w7 none,
        e.id = (("poem_").data) ++ e.poemNumber
        ∧ e.folderPath = (("Poetry/").data) ++ e.poemNumber)
    ∧ ((fetchAllPoemsEnhanced w7 none).map PoemEntry.id).Nodup :=
  c1_identity_from_container w7 none (by decide) (by decide)

/-- C2: the claim is right and the current parser is wrong — the
repository documents its frontmatter parser as having quoted-string
handling (and the pre-restructure copy of content-loader.js still
strips a matching pair of surrounding quotes), but the shipped
`parsePoemFileContent` stores the trimmed value verbatim: a declared
`title: "Kogarashi"` keeps its surrounding double quotes. -/
theorem c2_quotes_not_stripped :
    (parsePoemFileContent docQuoted).frontMatter
      = [((("title").data), (("\"Kogarashi\"").data))]
    ∧ lookupKey (parsePoemFileContent docQuoted).frontMatter (("title").data)
        ≠ some (("Kogarashi").data) := by
  exact ⟨by decide, by decide⟩

/-- C3, counterexample to the claim as stated: a non-2xx listing
response is a failure of the remote listing attempt, yet discovery
returns the empty list there, not the hardcoded fallback list. -/
theorem c3_nonok_counterexample :
    stNotOk.listing = ListingResult.notOk
    ∧ discoverAllPoemsFromFolders stNotOk = []
    ∧ discoverAllPoemsFromFolders stNotOk ≠ getFallbackPoemPathsForFolders := by
  exact ⟨rfl, rfl, by decide⟩

/-- C3 (amended): when the remote listing attempt throws — a transport
error, or a malformed body making `response.json()` throw — discovery
returns exactly the hardcoded fallback list in its declared order; a
non-2xx listing response instead yields the empty list; being a total
function, `discover` never throws to the caller. -/
theorem c3_fallback_on_throw (st : RemoteState)
    (h : st.listing = ListingResult.netErr ∨ st.listing = ListingResult.malformed) :
    discoverAllPoemsFromFolders st = getFallbackPoemPathsForFolders := by
  rcases h with h | h <;> rw [discoverAllPoemsFromFolders, h]

/-- C3 witness: the amended theorem at a transport-failing listing. -/
theorem c3_fallback_witness :
    discoverAllPoemsFromFolders stNetErr = getFallbackPoemPathsForFolders :=
  c3_fallback_on_throw stNetErr (Or.inl rfl)

/-- C4: with a positive limit `n`, one pass processes exactly the first
`n` locators of the discovery result, skips every locator whose
document fetch fails (non-2xx or transport error) while continuing with
the rest, and returns the records in discovery order — the record
paths are exactly the paths of the fetch-succeeding locators among the
first `n`, in order. -/
theorem c4_limit_firstN (w : World) (n : Nat) (hn : 0 < n) :
    (fetchAllPoemsEnhanced w (some (n : Int))).map PoemEntry.filePath
      = (((discoverAllPoemsFromFolders w.remote).take n).filter
          (fun info => docOk (w.fetchDoc info.path))).map PoemInfo.path := by
  have hnz : ¬ ((n : Int) = 0) := by
    exact_mod_cast Nat.pos_iff_ne_zero.mp hn
  have hpp : pathsToProcess (discoverAllPoemsFromFolders w.remote) (some (n : Int))
      = (discoverAllPoemsFromFolders w.remote).take n := by
    simp [pathsToProcess, hnz, jsSlice0, Int.toNat_natCast]
  rw [fetchAllPoemsEnhanced, hpp, List.map_filterMap]
  rw [← filterMap_if_eq (fun info => docOk (w.fetchDoc info.path)) PoemInfo.path]
  apply List.filterMap_congr
  intro info _
  rcases hfd : w.fetchDoc info.path with body | _ | _ <;>
    simp [processPoemInfo, hfd, docOk, mkPoemEntry]

/-- C4 witness: `run(2)` on a 10-locator discovery result with all
fetches succeeding returns exactly the records of the first 2 locators
in discovery order. -/
theorem c4_limit_witness :
    (fetchAllPoemsEnhanced w10 (some ((2 : Nat) : Int))).map PoemEntry.filePath
      = [("Poetry/1/poem.md").data, ("Poetry/2/poem.md").data] :=
  (c4_limit_firstN w10 2 (by decide)).trans (by decide)

/-- The probing loop either misses every candidate (empty result) or
returns the first candidate in list order whose probe succeeds. -/
theorem detectImageFrom_spec (head : Str → FetchStatus) (fp : Str) :
    ∀ exts : List Str,
      (detectImageFrom head fp exts = []
        ∧ ∀ ext ∈ exts, ¬ statusOk (head (candidatePath fp ext)) = true)
      ∨ (∃ pre ext post, exts = pre ++ ext :: post
          ∧ detectImageFrom head fp exts = candidatePath fp ext
          ∧ statusOk (head (candidatePath fp ext)) = true
          ∧ ∀ e ∈ pre, ¬ statusOk (head (candidatePath fp e)) = true) := by
  intro exts
  induction exts with
  | nil => exact Or.inl ⟨rfl, by simp⟩
  | cons ext rest ih =>
    by_cases h : statusOk (head (candidatePath fp ext)) = true
    · refine Or.inr ⟨[], ext, rest, rfl, ?_, h, by simp⟩
      simp [detectImageFrom, h]
    · rcases ih with ⟨hval, hall⟩ | ⟨pre, e0, post, heq, hval, hok, hpre⟩
      · refine Or.inl ⟨?_, ?_⟩
        · simpa [detectImageFrom, h] using hval
        · intro e he
          rcases List.mem_cons.mp he with rfl | he
          · exact h
          · exact hall e he
      · refine Or.inr ⟨ext :: pre, e0, post, by rw [List.cons_append, ← heq], ?_, hok, ?_⟩
        · simpa [detectImageFrom, h] using hval
        · intro e he
          rcases List.mem_cons.mp he with rfl | he
          · exact h
          · exact hpre e he

theorem statusOk_ok : statusOk FetchStatus.ok = true := rfl

theorem statusOk_notOk : statusOk FetchStatus.notOk = false := rfl

theorem statusOk_err : statusOk FetchStatus.err = false := rfl

/-- Collapsing a transport error on a probe into a plain not-found
answer never changes the result of the probing loop. -/
theorem detectImageFrom_ok_only (head : Str → FetchStatus) (fp : Str) :
    ∀ exts : List Str,
      detectImageFrom
          (fun p => if statusOk (head p) then FetchStatus.ok else FetchStatus.notOk)
          fp exts
        = detectImageFrom head fp exts := by
  intro exts
  induction exts with
  | nil => rfl
  | cons ext rest ih =>
    cases hh : head (candidatePath fp ext) <;>
      simp [detectImageFrom, hh, statusOk_ok, statusOk_notOk, statusOk_err, ih]

/-- C5: for every container path, asset resolution either returns the
empty string with no candidate probe succeeding, or returns the first
candidate of `image.png`, `image.jpg`, `image.jpeg`, `image.webp` (in
that preference order) whose existence probe succeeds; and a transport
error on a probe behaves exactly like a not-found response.  The
resolver is a total function, so it never throws. -/
theorem c5_asset_resolution (head : Str → FetchStatus) (folderPath : Str) :
    ((detectImage head folderPath = []
        ∧ ∀ ext ∈ imageExtensions,
            ¬ statusOk (head (candidatePath folderPath ext)) = true)
      ∨ (∃ pre ext post, imageExtensions = pre ++ ext :: post
          ∧ detectImage head folderPath = candidatePath folderPath ext
          ∧ statusOk (head (candidatePath folderPath ext)) = true
          ∧ ∀ e ∈ pre, ¬ statusOk (head (candidatePath folderPath e)) = true))
    ∧ detectImage
        (fun p => if statusOk (head p) then FetchStatus.ok else FetchStatus.notOk)
        folderPath
      = detectImage head folderPath := by
  exact ⟨detectImageFrom_spec head folderPath imageExtensions,
    detectImageFrom_ok_only head folderPath imageExtensions⟩

/-- C5 witness: the theorem at a concrete probe environment where the
`png` probe raises a transport error and the `jpg` probe succeeds. -/
theorem c5_asset_witness :
    ((detectImage head5 (("Poetry/9").data) = []
        ∧ ∀ ext ∈ imageExtensions,
            ¬ statusOk (head5 (candidatePath (("Poetry/9").data) ext)) = true)
      ∨ (∃ pre ext post, imageExtensions = pre ++ ext :: post
          ∧ detectImage head5 (("Poetry/9").data) = candidatePath (("Poetry/9").data) ext
          ∧ statusOk (head5 (candidatePath (("Poetry/9").data) ext)) = true
          ∧ ∀ e ∈ pre, ¬ statusOk (head5 (candidatePath (("Poetry/9").data) e)) = true))
    ∧ detectImage
        (fun p => if statusOk (head5 p) then FetchStatus.ok else FetchStatus.notOk)
        (("Poetry/9").data)
      = detectImage head5 (("Poetry/9").data) :=
  c5_asset_resolution head5 (("Poetry/9").data)

/-- The container names of the locators kept by a successful-listing
discovery pass are exactly the names of the numeric-directory entries
whose document existence check succeeds. -/
theorem discover_numbers_eq (st : RemoteState) (entries : List ListingEntry) :
    (((entries.filter (fun e => e.type = (("dir").data) && isNumericName e.name)).filterMap
        (fun folder =>
          if statusOk (st.poemCheck folder.name) then some (mkPoemInfo folder.name)
          else none)).map PoemInfo.poemNumber)
      = ((entries.filter (fun e => e.type = (("dir").data) && isNumericName e.name)).filter
          (fun e => statusOk (st.poemCheck e.name))).map ListingEntry.name := by
  rw [List.map_filterMap]
  rw [← filterMap_if_eq (fun e => statusOk (st.poemCheck e.name)) ListingEntry.name]
  apply List.filterMap_congr
  intro e _
  by_cases hc : statusOk (st.poemCheck e.name) = true <;> simp [hc, mkPoemInfo]

/-- C6, counterexample to the claim as stated: a successful listing
with one numeric directory entry `3` whose `poem.md` existence check
fails produces no locator at all, so discovery does not keep exactly
the numeric-directory entries. -/
theorem c6_discovery_counterexample :
    stMissingDoc.listing = ListingResult.ok [⟨("3").data, ("dir").data⟩]
    ∧ (([⟨("3").data, ("dir").data⟩] : List ListingEntry).filter
        (fun e => e.type = (("dir").data) && isNumericName e.name)).map ListingEntry.name
      = [("3").data]
    ∧ discoverAllPoemsFromFolders stMissingDoc = [] := by
  exact ⟨rfl, by decide, by decide⟩

/-- C6 (amended): for every successful remote listing response,
discovery keeps exactly (up to the sorting permutation) the entries
that are directories with a purely numeric name and whose per-container
document existence check succeeds, and the resulting locators are
ordered by the numeric value of the container name ascending.  The
function of the remote state is pure, so for a fixed remote state the
returned order is the same across calls. -/
theorem c6_discovery_filter_sort (st : RemoteState) (entries : List ListingEntry)
    (h : st.listing = ListingResult.ok entries) :
    ((discoverAllPoemsFromFolders st).map PoemInfo.poemNumber).Perm
        (((entries.filter (fun e => e.type = (("dir").data) && isNumericName e.name)).filter
          (fun e => statusOk (st.poemCheck e.name))).map ListingEntry.name)
    ∧ List.Pairwise (fun a b => pKey a ≤ pKey b) (discoverAllPoemsFromFolders st) := by
  constructor
  · simp only [discoverAllPoemsFromFolders, h]
    refine ((sortByPoemNumber_perm _).map PoemInfo.poemNumber).trans ?_
    rw [discover_numbers_eq st entries]
  · simp only [discoverAllPoemsFromFolders, h]
    exact sortByPoemNumber_pairwise _

/-- C6 witness: the amended theorem at the ten-container listing
(reported in lexicographic order, returned in numeric order). -/
theorem c6_discovery_witness :
    ((discoverAllPoemsFromFolders w10.remote).map PoemInfo.poemNumber).Perm
        (((entries10.filter (fun e => e.type = (("dir").data) && isNumericName e.name)).filter
          (fun e => statusOk (w10.remote.poemCheck e.name))).map ListingEntry.name)
    ∧ List.Pairwise (fun a b => pKey a ≤ pKey b) (discoverAllPoemsFromFolders w10.remote) :=
  c6_discovery_filter_sort w10.remote entries10 rfl

theorem splitOnChar_no_sep (sep : Char) :
    ∀ s : Str, sep ∉ s → splitOnChar sep s = [s] := by
  intro s
  induction s with
  | nil => intro _; rfl
  | cons c cs ih =>
    intro h
    have hc : ¬ c = sep := fun hc => h (by simp [hc])
    have ht := ih (fun hm => h (List.mem_cons_of_mem c hm))
    simp only [splitOnChar, hc, if_false, ht]

/-- C7: inside the frontmatter block, a line containing a colon is
split only on its first colon — the key is the trimmed text before
that colon (guaranteed first by `':' ∉ l`) and the value keeps every
later colon of `r` intact (trimmed only at the ends); a line with no
colon is ignored without error. -/
theorem c7_first_colon (m : List (Str × Str)) (l r line : Str)
    (hl : ':' ∉ l) (hline : ':' ∉ line) :
    processLine m (l ++ ':' :: r) = setKey m (trim l) (trim r)
    ∧ processLine m line = m := by
  constructor
  · have hparts := splitOnChar_no_sep_cons ':' l r hl
    have hne := splitOnChar_ne_nil ':' r
    have hlen : 2 ≤ (l :: splitOnChar ':' r).length := by
      have := List.length_pos.mpr hne
      simp only [List.length_cons]
      omega
    simp only [processLine, hparts, if_pos hlen, List.headD_cons, List.tail_cons,
      joinColon_splitOnChar]
  · have hparts := splitOnChar_no_sep ':' line hline
    simp [processLine, hparts]

/-- C7 witness: a value containing a URL with colons survives intact,
and a colon-free line changes nothing. -/
theorem c7_first_colon_witness :
    processLine [] ((("url").data) ++ ':' :: ((" http://a.b/c ").data))
        = setKey [] (trim (("url").data)) (trim ((" http://a.b/c ").data))
    ∧ processLine [] (("no colon here").data) = [] :=
  c7_first_colon [] (("url").data) ((" http://a.b/c ").data)
    (("no colon here").data) (by decide) (by decide)

/-- C8: a document that does not begin with a frontmatter block —
either it does not start with the `---` marker, or no closing `---`
follows — parses to an empty metadata mapping with the trimmed raw
text as body.  `parsePoemFileContent` is a total function, so it never
throws on any string input. -/
theorem c8_no_block (d : Str)
    (h : ¬ begins dashes d = true ∨ ¬ hasSub dashes (d.drop 3) = true) :
    (parsePoemFileContent d).frontMatter = []
    ∧ (parsePoemFileContent d).poemText = trim d := by
  have hm : frontMatterMatch d = none := by
    rcases h with h | h
    · simp [frontMatterMatch, h]
    · by_cases hb : begins dashes d = true
      · rw [frontMatterMatch, if_pos hb]
        rcases hf : findSub dashes (d.drop 3) with _ | i
        · simp only [hf]
        · exact absurd (by simp [hasSub, hf]) h
      · simp [frontMatterMatch, hb]
  simp [parsePoemFileContent, hm]

/-- C8 witness: a plain document with no marker at all. -/
theorem c8_no_block_witness :
    (parsePoemFileContent (("just a poem\nwith: colons").data)).frontMatter = []
    ∧ (parsePoemFileContent (("just a poem\nwith: colons").data)).poemText
        = trim (("just a poem\nwith: colons").data) :=
  c8_no_block (("just a poem\nwith: colons").data) (Or.inl (by decide))

/-- C9: a limit of `0` is falsy, exactly like the `null` default, so
the pipeline processes every discovered locator and returns the full
record sequence rather than an empty prefix. -/
theorem c9_zero_limit (w : World) :
    fetchAllPoemsEnhanced w (some 0) = fetchAllPoemsEnhanced w none
    ∧ fetchAllPoemsEnhanced w (some 0)
        = (discoverAllPoemsFromFolders w.remote).filterMap (processPoemInfo w) := by
  constructor <;> rfl

theorem jsOr_isEmpty_false (v : Option Str) (d : Str) (hd : d ≠ []) :
    (jsOr v d).isEmpty = false := by
  have hne := jsOr_ne_nil v d hd
  rcases hj : jsOr v d with _ | ⟨a, l⟩
  · exact absurd hj hne
  · rfl

/-- C10: every record of a pipeline pass has non-empty title, author,
language, form and length — the defaults `Untitled`, `Unknown Author`
and `unknown` kick in both when the metadata key is absent and when it
is present with an empty value, because the JavaScript or-default
treats the empty string as falsy. -/
theorem c10_nonempty_defaults (w : World) (limit : Option Int) :
    (fetchAllPoemsEnhanced w limit).all recordFieldsOk = true
    ∧ ∀ d : Str, jsOr (some []) d = d ∧ jsOr none d = d := by
  constructor
  · apply List.all_eq_true.mpr
    intro e he
    rcases List.mem_filterMap.mp he with ⟨info, _, hproc⟩
    rcases hfd : w.fetchDoc info.path with body | _ | _ <;>
      rw [processPoemInfo, hfd] at hproc
    · have he' := Option.some.inj hproc
      subst he'
      simp [recordFieldsOk, mkPoemEntry,
        jsOr_isEmpty_false _ _ (by decide : ¬ ((("Untitled").data : Str) = [])),
        jsOr_isEmpty_false _ _ (by decide : ¬ ((("Unknown Author").data : Str) = [])),
        jsOr_isEmpty_false _ _ (by decide : ¬ ((("unknown").data : Str) = []))]
    · simp at hproc
    · simp at hproc
  · intro d
    exact ⟨rfl, rfl⟩

end Poetry
